import Mathlib

/-!
Verification of the Word document operations facade (`word_mcp_server.py`).

The Python code is shallowly embedded: strings are `List Char` (wrapped in
`String` at the operation boundary), the python-docx document tree is an
inductive data model (runs, paragraphs, cells, rows, tables, document), and
the filesystem is a map from path strings to files.  Python string methods
(`in`, `count`, `replace`, `strip`, `endswith`, `lower`) and the posixpath
helpers (`dirname`, `basename`, `splitext`, `join`) are embedded with their
Python semantics, including the empty-pattern cases of `count`/`replace`.

Deliberate abstractions (no claim depends on them): file byte sizes and
core-property timestamps are filesystem/IO facts and are modelled by a
character-count measure resp. the constant `"Unknown"`; the external
LibreOffice converter is modelled as a deterministic function that succeeds
exactly on Word files and writes its output file, overwriting; paths are map
keys compared as literal strings; python-docx merged-cell aliasing is not
modelled (all cells are distinct).
-/

namespace WordMcp

/-- Python whitespace for `str.strip()` (ASCII part of Python's definition). -/
def pyIsSpace (c : Char) : Bool :=
  c = ' ' || c = '\t' || c = '\n' || c = '\x0d' || c = '\x0b' || c = '\x0c'

/-- Python `s.strip()` on a character list: drop whitespace from both ends. -/
def pyStrip (s : List Char) : List Char :=
  ((s.dropWhile pyIsSpace).reverse.dropWhile pyIsSpace).reverse

/-- Python `pat in s` substring test (`"" in s` is `True`). -/
def isSubstr (pat : List Char) : List Char → Bool
  | [] => pat.isEmpty
  | c :: cs => pat.isPrefixOf (c :: cs) || isSubstr pat cs

/-- Auxiliary for `countOcc`, scanning left to right for a non-empty pattern:
`skip` is the number of characters still covered by the previously matched
occurrence, so occurrences never overlap, exactly as Python `str.count`. -/
def countOccGo (pat : List Char) : List Char → Nat → Nat
  | [], _ => 0
  | _ :: cs, Nat.succ k => countOccGo pat cs k
  | c :: cs, 0 =>
    if pat.isPrefixOf (c :: cs) then 1 + countOccGo pat cs (pat.length - 1)
    else countOccGo pat cs 0

/-- Python `s.count(pat)`: non-overlapping occurrences scanned left to right;
for the empty pattern the result is `len(s) + 1`. -/
def countOcc (pat s : List Char) : Nat :=
  match pat with
  | [] => s.length + 1
  | _ :: _ => countOccGo pat s 0

/-- Auxiliary for `pyReplace`, scanning left to right for a non-empty
pattern: characters still covered by the previously matched occurrence
(`skip` of them) were consumed by the emitted replacement and are dropped. -/
def pyReplaceGo (pat news : List Char) : List Char → Nat → List Char
  | [], _ => []
  | _ :: cs, Nat.succ k => pyReplaceGo pat news cs k
  | c :: cs, 0 =>
    if pat.isPrefixOf (c :: cs) then news ++ pyReplaceGo pat news cs (pat.length - 1)
    else c :: pyReplaceGo pat news cs 0

/-- Python `s.replace(old, new)`: every non-overlapping occurrence of `old`,
scanned left to right, is replaced by `new`; for empty `old`, `new` is
inserted at every character boundary (Python: `"ab".replace("", "-")` is
`"-a-b-"`). -/
def pyReplace (old news s : List Char) : List Char :=
  match old with
  | [] => news ++ (s.map (fun c => [c] ++ news)).flatten
  | _ :: _ => pyReplaceGo old news s 0

/-- Python `s.endswith(suffix)`. -/
def pyEndsWith (s suffix : String) : Bool :=
  suffix.data.isSuffixOf s.data

/-- Python `s.lower()` (ASCII case mapping). -/
def pyLower (s : String) : String :=
  String.mk (s.data.map Char.toLower)

/-- Python `s.replace(old, new)` at `String` level. -/
def pyReplaceStr (s old news : String) : String :=
  String.mk (pyReplace old.data news.data s.data)

/-- Index of the last occurrence of `c` in `s` (`None` when absent),
as Python `s.rfind(c)` for a single character. -/
def rfindIdx (c : Char) : List Char → Option Nat
  | [] => none
  | a :: as =>
    match rfindIdx c as with
    | some i => some (i + 1)
    | none => if a = c then some 0 else none

/-- `posixpath.dirname`: everything before the last slash, with trailing
slashes stripped unless the head is all slashes; `""` when there is no slash. -/
def pyDirname (p : String) : String :=
  match rfindIdx '/' p.data with
  | none => ""
  | some i =>
    let head := p.data.take (i + 1)
    if head.all (fun c => c = '/') then String.mk head
    else String.mk ((head.reverse.dropWhile (fun c => c = '/')).reverse)

/-- `posixpath.basename`: everything after the last slash. -/
def pyBasename (p : String) : String :=
  match rfindIdx '/' p.data with
  | none => p
  | some i => String.mk (p.data.drop (i + 1))

/-- The root part of `posixpath.splitext p`: the extension starting at the
last dot is removed, unless every character between the last slash and that
dot is itself a dot (so `".bashrc"` keeps its dot). -/
def pySplitextRoot (p : String) : String :=
  let sepEnd : Nat :=
    match rfindIdx '/' p.data with
    | none => 0
    | some i => i + 1
  match rfindIdx '.' p.data with
  | none => p
  | some d =>
    if sepEnd ≤ d ∧ ¬ (((p.data.drop sepEnd).take (d - sepEnd)).all (fun c => c = '.')) then
      String.mk (p.data.take d)
    else p

/-- `posixpath.join a b` for a single joined component. -/
def pyJoin (a b : String) : String :=
  if b.data.head? = some '/' then b
  else if a = "" ∨ a.data.getLast? = some '/' then a ++ b
  else a ++ "/" ++ b

/-- A single-quoted rendering used by the Python f-string messages. -/
def quoteStr (s : String) : String :=
  "\x27" ++ s ++ "\x27"

/-! ## The python-docx document model -/

/-- A text run: the smallest unit of text sharing one formatting state.
The formatting payload is opaque to every operation and carried along. -/
structure Run where
  text : List Char
  fmt : String := ""
deriving DecidableEq, Repr

/-- A paragraph: an ordered sequence of runs plus a style name. -/
structure Paragraph where
  runs : List Run
  style : String := "Normal"
deriving DecidableEq, Repr

/-- `paragraph.text` in python-docx: concatenation of the run texts. -/
def Paragraph.text (p : Paragraph) : List Char :=
  (p.runs.map Run.text).flatten

/-- A table cell: a list of paragraphs. -/
structure Cell where
  paragraphs : List Paragraph
deriving DecidableEq, Repr

/-- A table row: a list of cells. -/
structure Row where
  cells : List Cell
deriving DecidableEq, Repr

/-- A table: a list of rows. -/
structure Table where
  rows : List Row
deriving DecidableEq, Repr

/-- A document: body paragraphs, tables, and the core properties the code
touches.  `Document()` in python-docx yields an empty body, which is the
default value here.  Timestamp properties are not modelled (IO facts). -/
structure Doc where
  paragraphs : List Paragraph := []
  tables : List Table := []
  title : String := ""
  author : String := ""
deriving DecidableEq, Repr

/-- All paragraphs of a table, in document order: rows, then cells, then the
paragraphs of each cell. -/
def Table.allParas (t : Table) : List Paragraph :=
  t.rows.flatMap fun r => r.cells.flatMap fun c => c.paragraphs

/-- All paragraphs of a document in traversal order of `replace_text`:
body paragraphs first, then every paragraph of every cell of every table. -/
def Doc.allParas (d : Doc) : List Paragraph :=
  d.paragraphs ++ d.tables.flatMap Table.allParas

/-- `doc.add_paragraph(text)`: appends a Normal paragraph; python-docx adds
a run only when the text is non-empty. -/
def Doc.add_paragraph (d : Doc) (text : String) : Doc :=
  { d with paragraphs :=
      d.paragraphs ++ [{ runs := if text = "" then [] else [{ text := text.data }] }] }

/-- `doc.add_heading(text, level)`: appends a paragraph in the heading style
for `level` (python-docx uses style `Title` for level 0). -/
def Doc.add_heading (d : Doc) (text : String) (level : Int) : Doc :=
  { d with paragraphs :=
      d.paragraphs ++ [{ runs := if text = "" then [] else [{ text := text.data }],
                         style := if level = 0 then "Title" else "Heading " ++ toString level }] }

/-! ## The filesystem model

A file is either a Word document package or a PDF; the PDF produced by the
converter is modelled by the document it renders.  The filesystem maps path
strings (compared literally) to files. -/

/-- An on-disk file: a Word document package or a rendered PDF. -/
inductive File where
  | docx : Doc → File
  | pdf : Doc → File
deriving DecidableEq, Repr

/-- The filesystem: a map from path strings to files. -/
def FS := String → Option File

/-- Writing (creating or overwriting) a file, as a library `save` does. -/
def FS.set (fs : FS) (n : String) (f : File) : FS :=
  fun m => if m = n then some f else fs m

/-- Removing a file (the source side of `os.rename`). -/
def FS.erase (fs : FS) (n : String) : FS :=
  fun m => if m = n then none else fs m

/-- `os.path.exists`. -/
def check_file_exists (fs : FS) (filename : String) : Bool :=
  (fs filename).isSome

/-- `ensure_docx_extension`: append `.docx` when the filename lacks it. -/
def ensure_docx_extension (filename : String) : String :=
  if !pyEndsWith filename ".docx" then filename ++ ".docx" else filename

/-- Modelled detail text of the library exception raised when opening a file
that is not a Word package; its exact content is irrelevant to every claim. -/
def notWordFileDetail : String :=
  "file is not a Word document"

/-! ## The find/replace traversal (`replace_text`), run by run -/

/-- One run of a matched paragraph: when the run text contains `find_text`,
all its occurrences are replaced and the counter contribution is the number
of occurrences of `replace_with` in the run's post-replacement text. -/
def replaceRun (find_text replace_with : List Char) (r : Run) : Run × Nat :=
  if isSubstr find_text r.text then
    let t := pyReplace find_text replace_with r.text
    ({ r with text := t }, countOcc replace_with t)
  else (r, 0)

/-- One paragraph: runs are rewritten only when the paragraph's visible text
contains `find_text` (checked on the pre-mutation text, as the Python loop
does before touching any run). -/
def replacePara (find_text replace_with : List Char) (p : Paragraph) : Paragraph × Nat :=
  if isSubstr find_text p.text then
    let rs := p.runs.map (replaceRun find_text replace_with)
    ({ p with runs := rs.map Prod.fst }, (rs.map Prod.snd).sum)
  else (p, 0)

/-- A list of paragraphs, accumulating the counter. -/
def replaceParas (find_text replace_with : List Char) (ps : List Paragraph) :
    List Paragraph × Nat :=
  let rs := ps.map (replacePara find_text replace_with)
  (rs.map Prod.fst, (rs.map Prod.snd).sum)

/-- One table cell. -/
def replaceCell (find_text replace_with : List Char) (c : Cell) : Cell × Nat :=
  let r := replaceParas find_text replace_with c.paragraphs
  (⟨r.fst⟩, r.snd)

/-- One table row. -/
def replaceRow (find_text replace_with : List Char) (row : Row) : Row × Nat :=
  let rs := row.cells.map (replaceCell find_text replace_with)
  (⟨rs.map Prod.fst⟩, (rs.map Prod.snd).sum)

/-- One table. -/
def replaceTable (find_text replace_with : List Char) (t : Table) : Table × Nat :=
  let rs := t.rows.map (replaceRow find_text replace_with)
  (⟨rs.map Prod.fst⟩, (rs.map Prod.snd).sum)

/-- The whole-document traversal of `replace_text`: body paragraphs first,
then the tables, with the counter accumulated across both phases. -/
def replaceTextDoc (doc : Doc) (find_text replace_with : List Char) : Doc × Nat :=
  let body := replaceParas find_text replace_with doc.paragraphs
  let ts := doc.tables.map (replaceTable find_text replace_with)
  ({ doc with paragraphs := body.fst, tables := ts.map Prod.fst },
    body.snd + (ts.map Prod.snd).sum)

/-! ## The operations of the facade

Each operation takes the filesystem and its arguments and returns the
response string together with the filesystem after the call. -/

/-- `read_document`: missing file is an error; otherwise return the texts of
the paragraphs whose text is non-empty after `strip()`, joined by newline. -/
def read_document (fs : FS) (filename : String) : String × FS :=
  let filename := ensure_docx_extension filename
  match fs filename with
  | none => ("Error: Document " ++ quoteStr filename ++ " does not exist", fs)
  | some (File.pdf _) => ("Error reading document: " ++ notWordFileDetail, fs)
  | some (File.docx doc) =>
    (String.intercalate "\n"
      ((doc.paragraphs.filter fun p => !(pyStrip p.text).isEmpty).map
        fun p => String.mk p.text), fs)

/-- Modelled abstractly: `os.path.getsize(...) / 1024` is a filesystem fact;
it is replaced by the total character count of the document.  No claim
depends on it. -/
def File.sizeKb : File → Nat
  | File.docx d => ((d.allParas).map fun p => p.text.length).sum
  | File.pdf d => ((d.allParas).map fun p => p.text.length).sum

/-- The `json.dumps(info, indent=2)` payload of `get_document_info`;
timestamps are not modelled and render as their absent-value `"Unknown"`. -/
def renderInfo (filename : String) (doc : Doc) (sizeKb : Nat) : String :=
  "\x7b\n  \"filename\": \"" ++ filename ++ "\",\n  \"title\": \""
    ++ (if doc.title = "" then "Untitled" else doc.title) ++ "\",\n  \"author\": \""
    ++ (if doc.author = "" then "Unknown" else doc.author)
    ++ "\",\n  \"created\": \"Unknown\",\n  \"modified\": \"Unknown\",\n  \"paragraph_count\": "
    ++ toString doc.paragraphs.length ++ ",\n  \"table_count\": "
    ++ toString doc.tables.length ++ ",\n  \"file_size_kb\": "
    ++ toString sizeKb ++ "\n\x7d"

/-- `get_document_info`: missing file is an error; otherwise a serialized
summary of the document. -/
def get_document_info (fs : FS) (filename : String) : String × FS :=
  let filename := ensure_docx_extension filename
  match fs filename with
  | none => ("Error: Document " ++ quoteStr filename ++ " does not exist", fs)
  | some (File.pdf _) => ("Error getting document info: " ++ notWordFileDetail, fs)
  | some (File.docx doc) =>
    (renderInfo filename doc (File.sizeKb (File.docx doc)), fs)

/-- `copy_document`: source must exist and target must not; the copy is a
load/re-save round trip through the library. -/
def copy_document (fs : FS) (source_filename target_filename : String) : String × FS :=
  let source_filename := ensure_docx_extension source_filename
  let target_filename := ensure_docx_extension target_filename
  if !check_file_exists fs source_filename then
    ("Error: Source document " ++ quoteStr source_filename ++ " does not exist", fs)
  else if check_file_exists fs target_filename then
    ("Error: Target document " ++ quoteStr target_filename ++ " already exists", fs)
  else
    match fs source_filename with
    | some (File.docx d) =>
      ("Document copied successfully from " ++ quoteStr source_filename ++ " to "
        ++ quoteStr target_filename, fs.set target_filename (File.docx d))
    | _ => ("Error copying document: " ++ notWordFileDetail, fs)

/-- `create_document`: a fresh document with optional title/author metadata
(Python `if title:` sets it only for truthy, i.e. non-empty, values). -/
def create_document (fs : FS) (filename : String) (title author : Option String) :
    String × FS :=
  let filename := ensure_docx_extension filename
  let doc : Doc := {}
  let doc := match title with
    | some t => if t ≠ "" then { doc with title := t } else doc
    | none => doc
  let doc := match author with
    | some a => if a ≠ "" then { doc with author := a } else doc
    | none => doc
  ("Document " ++ quoteStr filename ++ " created successfully",
    fs.set filename (File.docx doc))

/-- `write_text`: load when appending to an existing file, else start fresh;
add one paragraph; save; the wording of the success message re-checks file
existence only after the save. -/
def write_text (fs : FS) (filename : String) (text : String) (append : Bool) :
    String × FS :=
  let filename := ensure_docx_extension filename
  let loaded : Option Doc :=
    if append && check_file_exists fs filename then
      match fs filename with
      | some (File.docx doc) => some doc
      | _ => none
    else some {}
  match loaded with
  | none => ("Error writing to document: " ++ notWordFileDetail, fs)
  | some doc =>
    let doc := doc.add_paragraph text
    let fs2 := fs.set filename (File.docx doc)
    let action := if append && check_file_exists fs2 filename then "appended to"
      else "written to"
    ("Text " ++ action ++ " " ++ quoteStr filename ++ " successfully", fs2)

/-- `add_heading`: validates the level before touching the filesystem, then
loads or creates, appends the heading and saves. -/
def add_heading (fs : FS) (filename : String) (text : String) (level : Int) :
    String × FS :=
  let filename := ensure_docx_extension filename
  if level < 1 ∨ level > 6 then
    ("Error: Heading level must be between 1 and 6", fs)
  else
    let loaded : Option Doc :=
      if check_file_exists fs filename then
        match fs filename with
        | some (File.docx doc) => some doc
        | _ => none
      else some {}
    match loaded with
    | none => ("Error adding heading: " ++ notWordFileDetail, fs)
    | some doc =>
      let doc := doc.add_heading text level
      ("Heading " ++ quoteStr text ++ " (level " ++ toString level ++ ") added to "
        ++ quoteStr filename, fs.set filename (File.docx doc))

/-- `replace_text`: missing file is an error; otherwise run the traversal and
save only when the counter is positive. -/
def replace_text (fs : FS) (filename : String) (find_text replace_with : String) :
    String × FS :=
  let filename := ensure_docx_extension filename
  match fs filename with
  | none => ("Error: Document " ++ quoteStr filename ++ " does not exist", fs)
  | some (File.pdf _) => ("Error replacing text: " ++ notWordFileDetail, fs)
  | some (File.docx doc) =>
    let r := replaceTextDoc doc find_text.data replace_with.data
    if r.snd > 0 then
      ("Replaced " ++ toString r.snd ++ " occurrence(s) of " ++ quoteStr find_text
        ++ " with " ++ quoteStr replace_with, fs.set filename (File.docx r.fst))
    else
      ("No occurrences of " ++ quoteStr find_text ++ " found", fs)

/-! ## PDF export -/

/-- The name LibreOffice gives its output: source base name with `.pdf`. -/
def sofficeOutName (source_path : String) : String :=
  pySplitextRoot (pyBasename source_path) ++ ".pdf"

/-- Modelled external converter (`soffice --headless --convert-to pdf`):
succeeds exactly on Word files, writing (and overwriting) the rendered PDF
into the output directory; `none` models a non-zero exit code. -/
def sofficeConvert (fs : FS) (source_path output_dir : String) : Option FS :=
  match fs source_path with
  | some (File.docx d) =>
    some (fs.set (pyJoin output_dir (sofficeOutName source_path)) (File.pdf d))
  | _ => none

/-- Modelled diagnostic text of a failed conversion; its exact content is
irrelevant to every claim. -/
def convFailDetail : String :=
  "source is not a Word document"

/-- Modelled detail of an `os.rename` exception; irrelevant to every claim. -/
def renameFailDetail : String :=
  "converted file not found"

/-- The resolved PDF target path: with no explicit target, Python evaluates
`source_path.replace(".docx", ".pdf")` (every occurrence); an explicit target
gets `.pdf` appended unless it already ends with it case-insensitively. -/
def resolveTargetPath (source_path : String) : Option String → String
  | none => pyReplaceStr source_path ".docx" ".pdf"
  | some t => if pyEndsWith (pyLower t) ".pdf" then t else t ++ ".pdf"

/-- `os.path.dirname(target_path) or "."`: the conversion output directory. -/
def outDirOf (target_path : String) : String :=
  if pyDirname target_path = "" then "." else pyDirname target_path

/-- `export_to_pdf`: check the source, resolve the target, convert into the
target's directory, and rename the converter output when its path differs
from the target path (only that branch checks for an existing target). -/
def export_to_pdf (fs : FS) (source_filename : String)
    (target_filename : Option String) : String × FS :=
  let source_path := ensure_docx_extension source_filename
  if !check_file_exists fs source_path then
    ("Error: Source document " ++ quoteStr source_path ++ " does not exist", fs)
  else
    let target_path := resolveTargetPath source_path target_filename
    let output_dir := outDirOf target_path
    match sofficeConvert fs source_path output_dir with
    | none => ("Conversion failed: " ++ convFailDetail, fs)
    | some fs2 =>
      let converted_path := pyJoin output_dir (sofficeOutName source_path)
      if converted_path ≠ target_path then
        if check_file_exists fs2 target_path then
          ("Error: Target file " ++ quoteStr target_path ++ " already exists", fs2)
        else
          match fs2 converted_path with
          | some f =>
            ("Document converted to PDF: " ++ quoteStr target_path,
              (fs2.erase converted_path).set target_path f)
          | none => ("Error during PDF conversion: " ++ renameFailDetail, fs2)
      else
        ("Document converted to PDF: " ++ quoteStr target_path, fs2)

/-! ## Spec-side formulations

These definitions follow the words of the specification, to be compared with
the embedded code above. -/

/-- Spec-side count for one run: the number of occurrences of `replace_with`
in the run's text after all occurrences of `find_text` in it have been
substituted, counted only for runs whose own text contains `find_text`. -/
def runSpecCount (find_text replace_with : List Char) (r : Run) : Nat :=
  if isSubstr find_text r.text then
    countOcc replace_with (pyReplace find_text replace_with r.text)
  else 0

/-- Spec-side count for one paragraph: the sum over its runs, taken only when
the paragraph's visible text contains `find_text`. -/
def paraSpecCount (find_text replace_with : List Char) (p : Paragraph) : Nat :=
  if isSubstr find_text p.text then
    (p.runs.map (runSpecCount find_text replace_with)).sum
  else 0

/-- Spec-side total count: the sum over every paragraph of the document, body
paragraphs first and then every paragraph of every cell of every table. -/
def specReplaceCount (doc : Doc) (find_text replace_with : List Char) : Nat :=
  ((doc.allParas).map (paraSpecCount find_text replace_with)).sum

/-! ## The replace counter equals the spec-side sum -/

lemma replaceRun_snd (f r : List Char) (run : Run) :
    (replaceRun f r run).snd = runSpecCount f r run := by
  simp only [replaceRun, runSpecCount]
  split <;> rfl

lemma replacePara_snd (f r : List Char) (p : Paragraph) :
    (replacePara f r p).snd = paraSpecCount f r p := by
  simp only [replacePara, paraSpecCount]
  split
  · rw [List.map_map]
    simp [Function.comp_def, replaceRun_snd]
  · rfl

lemma replaceParas_snd (f r : List Char) (ps : List Paragraph) :
    (replaceParas f r ps).snd = (ps.map (paraSpecCount f r)).sum := by
  simp [replaceParas, List.map_map, Function.comp_def, replacePara_snd]

lemma sum_map_flatMap {α β : Type} (l : List α) (g : α → List β) (h : β → Nat) :
    ((l.flatMap g).map h).sum = (l.map fun x => ((g x).map h).sum).sum := by
  induction l with
  | nil => rfl
  | cons a t ih => simp [List.flatMap_cons, List.sum_append, ih]

lemma replaceCell_snd (f r : List Char) (c : Cell) :
    (replaceCell f r c).snd = (c.paragraphs.map (paraSpecCount f r)).sum := by
  simp [replaceCell, replaceParas_snd]

lemma replaceRow_snd (f r : List Char) (row : Row) :
    (replaceRow f r row).snd =
      (((row.cells.flatMap Cell.paragraphs)).map (paraSpecCount f r)).sum := by
  simp [replaceRow, List.map_map, Function.comp_def, replaceCell_snd, sum_map_flatMap]

lemma replaceTable_snd (f r : List Char) (t : Table) :
    (replaceTable f r t).snd = ((t.allParas).map (paraSpecCount f r)).sum := by
  simp [replaceTable, Table.allParas, List.map_map, Function.comp_def, replaceRow_snd,
    sum_map_flatMap]

/-- The counter accumulated by the `replace_text` traversal equals the
spec-side sum over all paragraphs. -/
lemma replaceTextDoc_snd (doc : Doc) (f r : List Char) :
    (replaceTextDoc doc f r).snd = specReplaceCount doc f r := by
  simp [replaceTextDoc, specReplaceCount, Doc.allParas, List.map_append,
    List.sum_append, replaceParas_snd, List.map_map, Function.comp_def,
    replaceTable_snd, sum_map_flatMap]

/-! ## When no run matches, the traversal changes nothing and counts zero -/

lemma replaceRun_of_not (f r : List Char) (run : Run)
    (h : isSubstr f run.text = false) : replaceRun f r run = (run, 0) := by
  simp [replaceRun, h]

lemma replacePara_of_not (f r : List Char) (p : Paragraph)
    (h : ∀ run ∈ p.runs, isSubstr f run.text = false) :
    replacePara f r p = (p, 0) := by
  unfold replacePara
  split
  · have hmap : p.runs.map (replaceRun f r) = p.runs.map fun run => (run, 0) :=
      List.map_congr_left fun run hrun => replaceRun_of_not f r run (h run hrun)
    rw [hmap]
    simp [List.map_map, Function.comp_def]
  · rfl

lemma replaceParas_of_not (f r : List Char) (ps : List Paragraph)
    (h : ∀ p ∈ ps, ∀ run ∈ p.runs, isSubstr f run.text = false) :
    replaceParas f r ps = (ps, 0) := by
  unfold replaceParas
  have hmap : ps.map (replacePara f r) = ps.map fun p => (p, 0) :=
    List.map_congr_left fun p hp => replacePara_of_not f r p (h p hp)
  rw [hmap]
  simp [List.map_map, Function.comp_def]

lemma replaceCell_of_not (f r : List Char) (c : Cell)
    (h : ∀ p ∈ c.paragraphs, ∀ run ∈ p.runs, isSubstr f run.text = false) :
    replaceCell f r c = (c, 0) := by
  simp [replaceCell, replaceParas_of_not f r c.paragraphs h]

lemma replaceRow_of_not (f r : List Char) (row : Row)
    (h : ∀ c ∈ row.cells, ∀ p ∈ c.paragraphs, ∀ run ∈ p.runs,
      isSubstr f run.text = false) :
    replaceRow f r row = (row, 0) := by
  unfold replaceRow
  have hmap : row.cells.map (replaceCell f r) = row.cells.map fun c => (c, 0) :=
    List.map_congr_left fun c hc => replaceCell_of_not f r c (h c hc)
  rw [hmap]
  simp [List.map_map, Function.comp_def]

lemma replaceTable_of_not (f r : List Char) (t : Table)
    (h : ∀ p ∈ t.allParas, ∀ run ∈ p.runs, isSubstr f run.text = false) :
    replaceTable f r t = (t, 0) := by
  unfold replaceTable
  have hmap : t.rows.map (replaceRow f r) = t.rows.map fun row => (row, 0) := by
    refine List.map_congr_left fun row hrow => replaceRow_of_not f r row ?_
    intro c hc p hp
    refine h p ?_
    simp only [Table.allParas, List.mem_flatMap]
    exact ⟨row, hrow, c, hc, hp⟩
  rw [hmap]
  simp [List.map_map, Function.comp_def]

/-- When `find_text` lies in no single run's text, the whole traversal leaves
the document unchanged and its counter is zero. -/
lemma replaceTextDoc_of_not (doc : Doc) (f r : List Char)
    (h : ∀ p ∈ doc.allParas, ∀ run ∈ p.runs, isSubstr f run.text = false) :
    replaceTextDoc doc f r = (doc, 0) := by
  unfold replaceTextDoc
  have hbody : replaceParas f r doc.paragraphs = (doc.paragraphs, 0) := by
    refine replaceParas_of_not f r doc.paragraphs fun p hp => ?_
    exact h p (by simp only [Doc.allParas, List.mem_append]; exact Or.inl hp)
  have htab : doc.tables.map (replaceTable f r) = doc.tables.map fun t => (t, 0) := by
    refine List.map_congr_left fun t ht => replaceTable_of_not f r t ?_
    intro p hp run hrun
    refine h p ?_ run hrun
    simp only [Doc.allParas, List.mem_append, List.mem_flatMap]
    exact Or.inr ⟨t, ht, hp⟩
  rw [hbody, htab]
  simp [List.map_map, Function.comp_def]

/-! ## Claim C1 -/

/-- C1: the count returned by `replace_text` equals the sum, over every
paragraph (body paragraphs in order, then every paragraph of every cell of
every table) whose visible text contains `find_text`, and over every run of
that paragraph whose own text contains `find_text`, of the number of
occurrences of `replace_with` in that run's text after all occurrences of
`find_text` in it were substituted by `replace_with`; and the success
message reports exactly that sum. -/
theorem c1_replace_count (fs : FS) (filename find_text replace_with : String)
    (doc : Doc) :
    (replaceTextDoc doc find_text.data replace_with.data).snd =
      specReplaceCount doc find_text.data replace_with.data ∧
    (fs (ensure_docx_extension filename) = some (File.docx doc) →
      0 < specReplaceCount doc find_text.data replace_with.data →
      (replace_text fs filename find_text replace_with).fst =
        "Replaced " ++ toString (specReplaceCount doc find_text.data replace_with.data)
          ++ " occurrence(s) of " ++ quoteStr find_text ++ " with "
          ++ quoteStr replace_with) := by
  refine ⟨replaceTextDoc_snd doc find_text.data replace_with.data, ?_⟩
  intro hload hpos
  simp only [replace_text, hload]
  simp only [replaceTextDoc_snd]
  rw [if_pos hpos]

/-- Document used to evaluate C1 concretely. -/
def docC1 : Doc :=
  { paragraphs := [{ runs := [{ text := "hello".data }] }],
    tables := [{ rows := [{ cells := [{ paragraphs :=
      [{ runs := [{ text := "ll".data }] }] }] }] }] }

/-- Filesystem used to evaluate C1 concretely. -/
def fsC1 : FS := fun n => if n = "c1.docx" then some (File.docx docC1) else none

theorem c1_replace_count_witness :
    (replaceTextDoc docC1 "l".data "L".data).snd =
      specReplaceCount docC1 "l".data "L".data ∧
    (replace_text fsC1 "c1" "l" "L").fst =
      "Replaced " ++ toString (specReplaceCount docC1 "l".data "L".data)
        ++ " occurrence(s) of " ++ quoteStr "l" ++ " with " ++ quoteStr "L" :=
  ⟨(c1_replace_count fsC1 "c1" "l" "L" docC1).1,
    (c1_replace_count fsC1 "c1" "l" "L" docC1).2 (by decide) (by decide)⟩

/-! ## Claim C2 -/

/-- C2: when `find_text` occurs in some paragraph's concatenated visible text
but in no single run's text (a match split across a run boundary),
`replace_text` mutates no run, does not save the document, and returns the
no-occurrences message. -/
theorem c2_cross_run_no_match (fs : FS) (filename find_text replace_with : String)
    (doc : Doc)
    (hload : fs (ensure_docx_extension filename) = some (File.docx doc))
    (_hpara : ∃ p ∈ doc.allParas, isSubstr find_text.data p.text = true)
    (hruns : ∀ p ∈ doc.allParas, ∀ run ∈ p.runs,
      isSubstr find_text.data run.text = false) :
    (replaceTextDoc doc find_text.data replace_with.data).fst = doc ∧
    replace_text fs filename find_text replace_with =
      ("No occurrences of " ++ quoteStr find_text ++ " found", fs) := by
  have hz := replaceTextDoc_of_not doc find_text.data replace_with.data hruns
  constructor
  · rw [hz]
  · simp only [replace_text, hload]
    rw [hz]
    simp

/-- Document whose only occurrence of `"bc"` spans the run boundary between
`"ab"` and `"cd"`. -/
def docC2 : Doc :=
  { paragraphs := [{ runs := [{ text := "ab".data }, { text := "cd".data }] }] }

/-- Filesystem used to evaluate C2 concretely. -/
def fsC2 : FS := fun n => if n = "c2.docx" then some (File.docx docC2) else none

theorem c2_cross_run_no_match_witness :
    (replaceTextDoc docC2 "bc".data "X".data).fst = docC2 ∧
    replace_text fsC2 "c2" "bc" "X" =
      ("No occurrences of " ++ quoteStr "bc" ++ " found", fsC2) :=
  c2_cross_run_no_match fsC2 "c2" "bc" "X" docC2 (by decide) (by decide) (by decide)

/-! ## Claim C4 -/

/-- C4: `add_heading` with a level outside 1..6 returns the invalid-argument
error string and leaves the filesystem exactly as it was (no file is touched
or created). -/
theorem c4_add_heading_level_guard (fs : FS) (filename text : String) (level : Int)
    (h : level < 1 ∨ level > 6) :
    add_heading fs filename text level =
      ("Error: Heading level must be between 1 and 6", fs) := by
  simp only [add_heading]
  rw [if_pos h]

theorem c4_add_heading_level_guard_witness :
    ((7 : Int) < 1 ∨ (7 : Int) > 6) ∧
    add_heading (fun _ => none) "c4" "t" 7 =
      ("Error: Heading level must be between 1 and 6", (fun _ => none : FS)) :=
  ⟨Or.inr (by decide),
    c4_add_heading_level_guard (fun _ => none) "c4" "t" 7 (Or.inr (by decide))⟩

/-! ## Claim C5 -/

/-- C5 (amended): `copy_document` checks the source first; with the source
absent it returns the not-found error, and with the source present and the
target already existing it returns the already-exists error; in both cases
the filesystem is left exactly as it was (nothing is written). -/
theorem c5_copy_guards (fs : FS) (source_filename target_filename : String) :
    (fs (ensure_docx_extension source_filename) = none →
      copy_document fs source_filename target_filename =
        ("Error: Source document " ++ quoteStr (ensure_docx_extension source_filename)
          ++ " does not exist", fs)) ∧
    (∀ f g, fs (ensure_docx_extension source_filename) = some f →
      fs (ensure_docx_extension target_filename) = some g →
      copy_document fs source_filename target_filename =
        ("Error: Target document " ++ quoteStr (ensure_docx_extension target_filename)
          ++ " already exists", fs)) := by
  constructor
  · intro h
    simp [copy_document, check_file_exists, h]
  · intro f g hs ht
    simp [copy_document, check_file_exists, hs, ht]

/-- Filesystem in which the copy target exists but the source does not. -/
def fsC5 : FS := fun n => if n = "t5.docx" then some (File.docx {}) else none

/-- C5 counterexample: with the target present and the source absent, the
call returns the not-found error, not the already-exists error the claim
promises for every state in which the target exists. -/
theorem c5_copy_guards_counterexample :
    check_file_exists fsC5 (ensure_docx_extension "t5") = true ∧
    (copy_document fsC5 "s5" "t5").fst =
      "Error: Source document " ++ quoteStr "s5.docx" ++ " does not exist" ∧
    (copy_document fsC5 "s5" "t5").fst ≠
      "Error: Target document " ++ quoteStr "t5.docx" ++ " already exists" := by
  refine ⟨by decide, by decide, by decide⟩

/-- Filesystem in which both copy source and copy target exist. -/
def fsC5b : FS :=
  fun n => if n = "s5.docx" ∨ n = "t5.docx" then some (File.docx {}) else none

theorem c5_copy_guards_witness :
    copy_document (fun _ => none) "s5" "t5" =
      ("Error: Source document " ++ quoteStr "s5.docx" ++ " does not exist",
        (fun _ => none : FS)) ∧
    copy_document fsC5b "s5" "t5" =
      ("Error: Target document " ++ quoteStr "t5.docx" ++ " already exists", fsC5b) :=
  ⟨(c5_copy_guards (fun _ => none) "s5" "t5").1 rfl,
   (c5_copy_guards fsC5b "s5" "t5").2 (File.docx {}) (File.docx {})
     (by decide) (by decide)⟩

/-! ## Claim C7 -/

lemma pyStrip_eq_nil_iff (s : List Char) :
    pyStrip s = [] ↔ ∀ c ∈ s, pyIsSpace c = true := by
  unfold pyStrip
  rw [List.reverse_eq_nil_iff, List.dropWhile_eq_nil_iff]
  constructor
  · intro h c hc
    rcases (List.mem_append.mp (by rw [List.takeWhile_append_dropWhile]; exact hc :
        c ∈ s.takeWhile pyIsSpace ++ s.dropWhile pyIsSpace)) with h1 | h1
    · exact List.mem_takeWhile_imp h1
    · exact h c (List.mem_reverse.mpr h1)
  · intro h c hc
    exact h c ((s.dropWhile_sublist pyIsSpace).mem (List.mem_reverse.mp hc))

/-- The paragraph filter of `read_document` (`paragraph.text.strip()` truthy)
keeps exactly the paragraphs whose text has a non-whitespace character. -/
lemma pyStrip_keep_eq (s : List Char) :
    (!(pyStrip s).isEmpty) = s.any fun c => !pyIsSpace c := by
  rw [Bool.eq_iff_iff]
  simp only [Bool.not_eq_true', List.isEmpty_iff, List.any_eq_true, Bool.not_eq_true]
  rw [← not_iff_not]
  push_neg
  simp [pyStrip_eq_nil_iff]

/-- C7 (amended): `read_document` on an absent file returns the not-found
error; on a Word document it returns the texts of exactly those paragraphs
containing a non-whitespace character (not of all non-empty paragraphs), in
order, joined by single newlines, and leaves the filesystem untouched. -/
theorem c7_read_document (fs : FS) (filename : String) (doc : Doc) :
    (fs (ensure_docx_extension filename) = none →
      read_document fs filename =
        ("Error: Document " ++ quoteStr (ensure_docx_extension filename)
          ++ " does not exist", fs)) ∧
    (fs (ensure_docx_extension filename) = some (File.docx doc) →
      read_document fs filename =
        (String.intercalate "\n"
          ((doc.paragraphs.filter fun p => p.text.any fun c => !pyIsSpace c).map
            fun p => String.mk p.text), fs)) := by
  constructor
  · intro h
    simp only [read_document, h]
  · intro h
    simp only [read_document, h]
    have hf : (doc.paragraphs.filter fun p => !(pyStrip p.text).isEmpty) =
        doc.paragraphs.filter fun p => p.text.any fun c => !pyIsSpace c :=
      List.filter_congr fun p _ => pyStrip_keep_eq p.text
    rw [hf]

/-- Document with an all-whitespace middle paragraph. -/
def docC7 : Doc :=
  { paragraphs := [{ runs := [{ text := "a".data }] },
                   { runs := [{ text := " ".data }] },
                   { runs := [{ text := "b".data }] }] }

/-- Filesystem used by the C7 counterexample and witness. -/
def fsC7 : FS := fun n => if n = "c7.docx" then some (File.docx docC7) else none

/-- The claim's words: the texts of all non-empty paragraphs, in order,
joined by a single newline. -/
def specReadAllNonEmpty (doc : Doc) : String :=
  String.intercalate "\n"
    ((doc.paragraphs.filter fun p => !p.text.isEmpty).map fun p => String.mk p.text)

/-- C7 counterexample: a paragraph consisting of one space is non-empty, yet
`read_document` drops it (the code filters on `strip()` truthiness). -/
theorem c7_read_document_counterexample :
    fsC7 (ensure_docx_extension "c7") = some (File.docx docC7) ∧
    (read_document fsC7 "c7").fst = "a\nb" ∧
    specReadAllNonEmpty docC7 = "a\n \nb" ∧
    (read_document fsC7 "c7").fst ≠ specReadAllNonEmpty docC7 := by
  refine ⟨by decide, by decide, by decide, by decide⟩

theorem c7_read_document_witness :
    read_document (fun _ => none) "c7" =
      ("Error: Document " ++ quoteStr (ensure_docx_extension "c7")
        ++ " does not exist", (fun _ => none : FS)) ∧
    read_document fsC7 "c7" =
      (String.intercalate "\n"
        ((docC7.paragraphs.filter fun p => p.text.any fun c => !pyIsSpace c).map
          fun p => String.mk p.text), fsC7) :=
  ⟨(c7_read_document (fun _ => none) "c7" docC7).1 rfl,
   (c7_read_document fsC7 "c7" docC7).2 (by decide)⟩

/-! ## Claim C8 -/

/-- C8: with `append = true`, the success message always says "appended to",
even when the file did not exist and a brand-new document was created — the
existence check that picks the wording runs only after the document has been
saved.  (The hypothesis excludes the case where the path holds a non-Word
file, where opening raises and an error string is returned instead.) -/
theorem c8_append_message (fs : FS) (filename text : String)
    (h : ∀ d, fs (ensure_docx_extension filename) ≠ some (File.pdf d)) :
    (write_text fs filename text true).fst =
      "Text appended to " ++ quoteStr (ensure_docx_extension filename)
        ++ " successfully" ∧
    (fs (ensure_docx_extension filename) = none →
      write_text fs filename text true =
        ("Text appended to " ++ quoteStr (ensure_docx_extension filename)
          ++ " successfully",
         fs.set (ensure_docx_extension filename)
           (File.docx (Doc.add_paragraph {} text)))) := by
  cases hfs : fs (ensure_docx_extension filename) with
  | none =>
    constructor
    · simp [write_text, check_file_exists, hfs, FS.set]
    · intro _
      simp [write_text, check_file_exists, hfs, FS.set]
  | some file =>
    cases file with
    | docx d =>
      constructor
      · simp [write_text, check_file_exists, hfs, FS.set]
      · intro hnone
        exact absurd hnone (by simp)
    | pdf d => exact absurd hfs (h d)

theorem c8_append_message_witness :
    (write_text (fun _ => none) "c8" "hi" true).fst =
      "Text appended to " ++ quoteStr (ensure_docx_extension "c8")
        ++ " successfully" ∧
    write_text (fun _ => none) "c8" "hi" true =
      ("Text appended to " ++ quoteStr (ensure_docx_extension "c8")
        ++ " successfully",
       FS.set (fun _ => none) (ensure_docx_extension "c8")
         (File.docx (Doc.add_paragraph {} "hi"))) :=
  ⟨(c8_append_message (fun _ => none) "c8" "hi" (fun d hd => by simp at hd)).1,
   (c8_append_message (fun _ => none) "c8" "hi" (fun d hd => by simp at hd)).2 rfl⟩

/-! ## Claim C3 -/

lemma ensure_append_docx (f : String) :
    ensure_docx_extension (f ++ ".docx") = f ++ ".docx" := by
  simp [ensure_docx_extension, pyEndsWith, String.data_append, List.isSuffixOf]

lemma ensure_eq_of_not (f : String) (h : pyEndsWith f ".docx" = false) :
    ensure_docx_extension f = f ++ ".docx" := by
  simp [ensure_docx_extension, h]

/-- Normalizing a filename without the extension yields the same path as
normalizing the filename with the extension already appended. -/
lemma ensure_invariant (f : String) (h : pyEndsWith f ".docx" = false) :
    ensure_docx_extension f = ensure_docx_extension (f ++ ".docx") := by
  rw [ensure_eq_of_not f h, ensure_append_docx]

/-- C3 (amended): for a filename without the `.docx` extension, every
operation behaves identically to the same call with `.docx` appended, for
every argument that is a document path (both `copy_document` arguments and
`export_to_pdf`'s source included); the one exception, forcing the
amendment, is `export_to_pdf`'s target argument, which is normalized to
`.pdf` instead of `.docx` (see the counterexample). -/
theorem c3_extension_invariance (fs : FS) (f other text : String) (level : Int)
    (title author : Option String) (append : Bool) (find_text replace_with : String)
    (tgt : Option String)
    (h : pyEndsWith f ".docx" = false) :
    read_document fs f = read_document fs (f ++ ".docx") ∧
    get_document_info fs f = get_document_info fs (f ++ ".docx") ∧
    copy_document fs f other = copy_document fs (f ++ ".docx") other ∧
    copy_document fs other f = copy_document fs other (f ++ ".docx") ∧
    create_document fs f title author =
      create_document fs (f ++ ".docx") title author ∧
    write_text fs f text append = write_text fs (f ++ ".docx") text append ∧
    add_heading fs f text level = add_heading fs (f ++ ".docx") text level ∧
    replace_text fs f find_text replace_with =
      replace_text fs (f ++ ".docx") find_text replace_with ∧
    export_to_pdf fs f tgt = export_to_pdf fs (f ++ ".docx") tgt := by
  have key := ensure_invariant f h
  refine ⟨?_, ?_, ?_, ?_, ?_, ?_, ?_, ?_, ?_⟩ <;>
    simp only [read_document, get_document_info, copy_document, create_document,
      write_text, add_heading, replace_text, export_to_pdf, key]

/-- Filesystem holding one Word document, used by the C3 counterexample. -/
def fsC3 : FS := fun n => if n = "doc.docx" then some (File.docx {}) else none

/-- C3 counterexample: `export_to_pdf`'s target filename lacks the `.docx`
extension, yet the call behaves differently from the call with `.docx`
appended to it — the resolved PDF paths (and so the results) differ. -/
theorem c3_extension_invariance_counterexample :
    pyEndsWith "out" ".docx" = false ∧
    (export_to_pdf fsC3 "doc.docx" (some "out")).fst ≠
      (export_to_pdf fsC3 "doc.docx" (some ("out" ++ ".docx"))).fst := by
  refine ⟨by decide, by decide⟩

/-- Filesystem holding the C3 witness document. -/
def fsC3w : FS := fun n => if n = "mydoc.docx" then some (File.docx {}) else none

theorem c3_extension_invariance_witness :
    read_document fsC3w "mydoc" = read_document fsC3w ("mydoc" ++ ".docx") ∧
    get_document_info fsC3w "mydoc" =
      get_document_info fsC3w ("mydoc" ++ ".docx") ∧
    copy_document fsC3w "mydoc" "o" =
      copy_document fsC3w ("mydoc" ++ ".docx") "o" ∧
    copy_document fsC3w "o" "mydoc" =
      copy_document fsC3w "o" ("mydoc" ++ ".docx") ∧
    create_document fsC3w "mydoc" none none =
      create_document fsC3w ("mydoc" ++ ".docx") none none ∧
    write_text fsC3w "mydoc" "txt" true =
      write_text fsC3w ("mydoc" ++ ".docx") "txt" true ∧
    add_heading fsC3w "mydoc" "txt" 2 =
      add_heading fsC3w ("mydoc" ++ ".docx") "txt" 2 ∧
    replace_text fsC3w "mydoc" "a" "b" =
      replace_text fsC3w ("mydoc" ++ ".docx") "a" "b" ∧
    export_to_pdf fsC3w "mydoc" (some "t.pdf") =
      export_to_pdf fsC3w ("mydoc" ++ ".docx") (some "t.pdf") :=
  c3_extension_invariance fsC3w "mydoc" "o" "txt" 2 none none true "a" "b"
    (some "t.pdf") (by decide)

/-! ## Claim C6 -/

lemma cons_isPrefixOf_eq_false {d c : Char} (ds l : List Char) (h : c ≠ d) :
    (d :: ds).isPrefixOf (c :: l) = false := by
  simp [List.isPrefixOf]
  intro hcd
  exact absurd hcd.symm h

/-- The left-to-right scan copies characters that cannot start a match. -/
lemma pyReplaceGo_skip (d : Char) (ds news : List Char) (l m : List Char)
    (h : ∀ c ∈ l, c ≠ d) :
    pyReplaceGo (d :: ds) news (l ++ m) 0 = l ++ pyReplaceGo (d :: ds) news m 0 := by
  induction l with
  | nil => rfl
  | cons c cs ih =>
    have hc : c ≠ d := h c (List.mem_cons_self c cs)
    have hpre : (d :: ds).isPrefixOf (c :: (cs ++ m)) = false :=
      cons_isPrefixOf_eq_false ds (cs ++ m) hc
    simp [pyReplaceGo, hpre, ih fun x hx => h x (List.mem_cons_of_mem c hx)]

/-- Replacing `.docx` by `.pdf` on a path whose stem has no dot swaps exactly
the trailing extension. -/
lemma pyReplace_docx_pdf (l : List Char) (h : ∀ c ∈ l, c ≠ '.') :
    pyReplace ('.' :: "docx".data) ".pdf".data (l ++ ('.' :: "docx".data)) =
      l ++ ".pdf".data := by
  show pyReplaceGo ('.' :: "docx".data) ".pdf".data (l ++ ('.' :: "docx".data)) 0 =
    l ++ ".pdf".data
  rw [pyReplaceGo_skip '.' "docx".data ".pdf".data l ('.' :: "docx".data) h]
  congr 1

/-- C6 (amended): with no explicit target, the default target path is the
source path with every occurrence of the substring `.docx` replaced by
`.pdf` — equal to swapping the trailing extension whenever the rest of the
path contains no dot (first conjunct), but not in general (see the
counterexample); an explicit target is kept when it already ends with
`.pdf` case-insensitively and gets `.pdf` appended otherwise, so the
resolved target always ends with `.pdf` case-insensitively. -/
theorem c6_resolve_target (base sp t : String) (hb : ∀ c ∈ base.data, c ≠ '.') :
    resolveTargetPath (base ++ ".docx") none = base ++ ".pdf" ∧
    (pyEndsWith (pyLower t) ".pdf" = true → resolveTargetPath sp (some t) = t) ∧
    (pyEndsWith (pyLower t) ".pdf" = false →
      resolveTargetPath sp (some t) = t ++ ".pdf") ∧
    pyEndsWith (pyLower (resolveTargetPath sp (some t))) ".pdf" = true := by
  refine ⟨?_, ?_, ?_, ?_⟩
  · show pyReplaceStr (base ++ ".docx") ".docx" ".pdf" = base ++ ".pdf"
    unfold pyReplaceStr
    rw [String.data_append]
    rw [show (".docx" : String).data = '.' :: "docx".data from rfl]
    rw [pyReplace_docx_pdf base.data hb, ← String.data_append]
  · intro h
    simp [resolveTargetPath, h]
  · intro h
    simp [resolveTargetPath, h]
  · cases h : pyEndsWith (pyLower t) ".pdf" with
    | true => simp [resolveTargetPath, h]
    | false =>
      simp only [resolveTargetPath, h, Bool.false_eq_true, if_false]
      unfold pyEndsWith pyLower
      rw [show (String.mk ((t ++ ".pdf").data.map Char.toLower)).data =
        (t ++ ".pdf").data.map Char.toLower from rfl]
      rw [String.data_append, List.map_append]
      rw [show (".pdf" : String).data.map Char.toLower = ".pdf".data from by decide]
      simp [List.isSuffixOf]

/-- The original claim's words: the source path with its trailing `.docx`
swapped to `.pdf`, every other character unchanged. -/
def specSwapTrailingExt (sp : String) : String :=
  String.mk (sp.data.take (sp.data.length - 5)) ++ ".pdf"

/-- C6 counterexample: for the (already normalized) source path
`a.docx.docx`, the code's `str.replace` rewrites both occurrences of
`.docx`, producing `a.pdf.pdf` instead of the trailing swap `a.docx.pdf`. -/
theorem c6_resolve_target_counterexample :
    pyEndsWith "a.docx.docx" ".docx" = true ∧
    resolveTargetPath "a.docx.docx" none = "a.pdf.pdf" ∧
    specSwapTrailingExt "a.docx.docx" = "a.docx.pdf" ∧
    resolveTargetPath "a.docx.docx" none ≠ specSwapTrailingExt "a.docx.docx" := by
  refine ⟨by decide, by decide, by decide, by decide⟩

theorem c6_resolve_target_witness :
    resolveTargetPath ("a" ++ ".docx") none = "a" ++ ".pdf" ∧
    (pyEndsWith (pyLower "x") ".pdf" = true →
      resolveTargetPath "s.docx" (some "x") = "x") ∧
    (pyEndsWith (pyLower "x") ".pdf" = false →
      resolveTargetPath "s.docx" (some "x") = "x" ++ ".pdf") ∧
    pyEndsWith (pyLower (resolveTargetPath "s.docx" (some "x"))) ".pdf" = true :=
  c6_resolve_target "a" "s.docx" "x" (by decide)

/-! ## Claim C9 -/

/-- C9: when the resolved target path coincides with the converter's own
output path (output directory joined with the source base name plus `.pdf`),
a pre-existing file at that path is silently overwritten rather than
rejected: the call succeeds and the target afterwards holds the fresh
conversion output — the already-exists check lives only in the branch where
the converter output must be renamed to a different path. -/
theorem c9_export_overwrite (fs : FS) (src : String) (tgt : Option String)
    (d : Doc) (old : File)
    (hsrc : fs (ensure_docx_extension src) = some (File.docx d))
    (heq : pyJoin (outDirOf (resolveTargetPath (ensure_docx_extension src) tgt))
        (sofficeOutName (ensure_docx_extension src)) =
        resolveTargetPath (ensure_docx_extension src) tgt)
    (_hold : fs (resolveTargetPath (ensure_docx_extension src) tgt) = some old) :
    export_to_pdf fs src tgt =
      ("Document converted to PDF: "
          ++ quoteStr (resolveTargetPath (ensure_docx_extension src) tgt),
        fs.set (resolveTargetPath (ensure_docx_extension src) tgt) (File.pdf d)) := by
  simp only [export_to_pdf, check_file_exists, hsrc, sofficeConvert]
  rw [heq]
  simp

/-- Source document for the C9 witness. -/
def docC9 : Doc := { paragraphs := [{ runs := [{ text := "x".data }] }] }

/-- Filesystem whose target path `out/doc.pdf` is already occupied. -/
def fsC9 : FS := fun n =>
  if n = "doc.docx" then some (File.docx docC9)
  else if n = "out/doc.pdf" then some (File.pdf {}) else none

theorem c9_export_overwrite_witness :
    export_to_pdf fsC9 "doc" (some "out/doc.pdf") =
      ("Document converted to PDF: "
          ++ quoteStr (resolveTargetPath (ensure_docx_extension "doc")
            (some "out/doc.pdf")),
        fsC9.set (resolveTargetPath (ensure_docx_extension "doc")
          (some "out/doc.pdf")) (File.pdf docC9)) :=
  c9_export_overwrite fsC9 "doc" (some "out/doc.pdf") docC9 (File.pdf {})
    (by decide) (by decide) (by decide)

/-! ## Claim C10 -/

/-- Spec-side description of a run rewrite for empty `find_text`:
`replace_with` inserted at every character boundary, so an empty run text
becomes exactly `replace_with`. -/
def specEmptyInsert (replace_with t : List Char) : List Char :=
  if t.isEmpty then replace_with
  else replace_with ++ (List.intersperse replace_with (t.map fun c => [c])).flatten
    ++ replace_with

/-- Rewriting the text of every run of a paragraph. -/
def paraMapText (g : List Char → List Char) (p : Paragraph) : Paragraph :=
  { p with runs := p.runs.map fun r => { r with text := g r.text } }

/-- Rewriting the text of every run in a cell. -/
def cellMapText (g : List Char → List Char) (c : Cell) : Cell :=
  ⟨c.paragraphs.map (paraMapText g)⟩

/-- Rewriting the text of every run in a row. -/
def rowMapText (g : List Char → List Char) (row : Row) : Row :=
  ⟨row.cells.map (cellMapText g)⟩

/-- Rewriting the text of every run in a table. -/
def tableMapText (g : List Char → List Char) (t : Table) : Table :=
  ⟨t.rows.map (rowMapText g)⟩

/-- Rewriting the text of every run of the whole document. -/
def docMapText (g : List Char → List Char) (d : Doc) : Doc :=
  { d with paragraphs := d.paragraphs.map (paraMapText g),
           tables := d.tables.map (tableMapText g) }

lemma flatten_map_append_eq (r : List Char) (t : List Char) (h : t ≠ []) :
    (t.map fun c => [c] ++ r).flatten =
      (List.intersperse r (t.map fun c => [c])).flatten ++ r := by
  induction t with
  | nil => exact absurd rfl h
  | cons c cs ih =>
    cases cs with
    | nil => simp [List.intersperse]
    | cons c2 cs2 =>
      have h2 := ih (by simp)
      simp only [List.map_cons, List.flatten_cons] at h2 ⊢
      rw [show List.intersperse r ([c] :: [c2] :: cs2.map fun c => [c]) =
        [c] :: r :: List.intersperse r ([c2] :: cs2.map fun c => [c]) from rfl]
      simp only [List.flatten_cons]
      rw [h2]
      simp

/-- Python's empty-pattern replace is exactly the boundary insertion the
claim describes. -/
lemma pyReplace_nil_eq (r t : List Char) : pyReplace [] r t = specEmptyInsert r t := by
  rw [show pyReplace [] r t = r ++ (t.map fun c => [c] ++ r).flatten from rfl]
  unfold specEmptyInsert
  cases ht : t.isEmpty with
  | true => simp [List.isEmpty_iff.mp ht]
  | false =>
    rw [if_neg (by simp)]
    rw [flatten_map_append_eq r t (by simpa [List.isEmpty_iff] using ht)]
    simp

lemma isSubstr_nil (s : List Char) : isSubstr [] s = true := by
  cases s <;> simp [isSubstr, List.isPrefixOf]

lemma isPrefixOf_self_append (l m : List Char) : l.isPrefixOf (l ++ m) = true := by
  simp [List.isPrefixOf]

lemma countOcc_prefix_pos (d : Char) (ds rest : List Char) :
    0 < countOcc (d :: ds) ((d :: ds) ++ rest) := by
  have h := isPrefixOf_self_append (d :: ds) rest
  simp only [List.cons_append] at h
  show 0 < countOccGo (d :: ds) (d :: (ds ++ rest)) 0
  simp only [countOccGo]
  rw [if_pos h]
  omega

/-- Every run contributes at least one to the counter when `find_text` is
empty: the post-replacement text starts with (or, for empty `replace_with`,
has positive length plus one for) the replacement. -/
lemma countOcc_pyReplace_nil_pos (r t : List Char) :
    0 < countOcc r (pyReplace [] r t) := by
  cases r with
  | nil => simp [countOcc]
  | cons d ds =>
    rw [show pyReplace [] (d :: ds) t =
      (d :: ds) ++ (t.map fun c => [c] ++ (d :: ds)).flatten from rfl]
    exact countOcc_prefix_pos d ds _

lemma replaceRun_nil (r : List Char) (run : Run) :
    replaceRun [] r run =
      ({ run with text := pyReplace [] r run.text },
        countOcc r (pyReplace [] r run.text)) := by
  simp [replaceRun, isSubstr_nil]

lemma replacePara_nil_fst (r : List Char) (p : Paragraph) :
    (replacePara [] r p).fst = paraMapText (pyReplace [] r) p := by
  simp [replacePara, isSubstr_nil, paraMapText, List.map_map, Function.comp_def,
    replaceRun_nil]

lemma replaceParas_nil_fst (r : List Char) (ps : List Paragraph) :
    (replaceParas [] r ps).fst = ps.map (paraMapText (pyReplace [] r)) := by
  simp [replaceParas, List.map_map, Function.comp_def, replacePara_nil_fst]

lemma replaceCell_nil_fst (r : List Char) (c : Cell) :
    (replaceCell [] r c).fst = cellMapText (pyReplace [] r) c := by
  simp [replaceCell, cellMapText, replaceParas_nil_fst]

lemma replaceRow_nil_fst (r : List Char) (row : Row) :
    (replaceRow [] r row).fst = rowMapText (pyReplace [] r) row := by
  simp [replaceRow, rowMapText, List.map_map, Function.comp_def, replaceCell_nil_fst]

lemma replaceTable_nil_fst (r : List Char) (t : Table) :
    (replaceTable [] r t).fst = tableMapText (pyReplace [] r) t := by
  simp [replaceTable, tableMapText, List.map_map, Function.comp_def,
    replaceRow_nil_fst]

/-- With empty `find_text` every paragraph and every run matches, and the
whole document is rewritten run by run. -/
lemma replaceTextDoc_nil_fst (r : List Char) (doc : Doc) :
    (replaceTextDoc doc [] r).fst = docMapText (pyReplace [] r) doc := by
  simp [replaceTextDoc, docMapText, List.map_map, Function.comp_def,
    replaceParas_nil_fst, replaceTable_nil_fst]

lemma paraSpecCount_nil_pos (r : List Char) (p : Paragraph) (hp : p.runs ≠ []) :
    0 < paraSpecCount [] r p := by
  unfold paraSpecCount
  rw [if_pos (isSubstr_nil p.text)]
  cases hr : p.runs with
  | nil => exact absurd hr hp
  | cons x xs =>
    have hx : 0 < runSpecCount [] r x := by
      simp only [runSpecCount, isSubstr_nil, if_pos]
      exact countOcc_pyReplace_nil_pos r x.text
    simp only [hr, List.map_cons, List.sum_cons]
    omega

lemma specReplaceCount_nil_pos (doc : Doc) (r : List Char)
    (h : ∃ p ∈ doc.allParas, p.runs ≠ []) :
    0 < specReplaceCount doc [] r := by
  obtain ⟨p, hp, hr⟩ := h
  have h1 : paraSpecCount [] r p ≤ ((doc.allParas).map (paraSpecCount [] r)).sum :=
    List.single_le_sum (fun x _ => Nat.zero_le x) _ (List.mem_map_of_mem _ hp)
  have h2 := paraSpecCount_nil_pos r p hr
  unfold specReplaceCount
  omega

/-- C10: with empty `find_text`, every paragraph and every run matches: each
run's text is rewritten with `replace_with` inserted at every character
boundary (an empty run text becomes exactly `replace_with`), the reported
count is positive whenever the document has at least one run, and the
document is saved. -/
theorem c10_empty_find (fs : FS) (filename replace_with : String) (doc : Doc)
    (hload : fs (ensure_docx_extension filename) = some (File.docx doc))
    (hrun : ∃ p ∈ doc.allParas, p.runs ≠ []) :
    (replaceTextDoc doc [] replace_with.data).fst =
      docMapText (specEmptyInsert replace_with.data) doc ∧
    0 < (replaceTextDoc doc [] replace_with.data).snd ∧
    replace_text fs filename "" replace_with =
      ("Replaced " ++ toString (replaceTextDoc doc [] replace_with.data).snd
          ++ " occurrence(s) of " ++ quoteStr "" ++ " with " ++ quoteStr replace_with,
        fs.set (ensure_docx_extension filename)
          (File.docx (docMapText (specEmptyInsert replace_with.data) doc))) := by
  have hfun : pyReplace [] replace_with.data = specEmptyInsert replace_with.data :=
    funext fun t => pyReplace_nil_eq replace_with.data t
  have hfst : (replaceTextDoc doc [] replace_with.data).fst =
      docMapText (specEmptyInsert replace_with.data) doc := by
    rw [replaceTextDoc_nil_fst, hfun]
  have hpos : 0 < (replaceTextDoc doc [] replace_with.data).snd := by
    rw [replaceTextDoc_snd]
    exact specReplaceCount_nil_pos doc replace_with.data hrun
  refine ⟨hfst, hpos, ?_⟩
  have hnil : ("" : String).data = [] := rfl
  simp only [replace_text, hload, hnil]
  rw [if_pos hpos, hfst]

/-- Document with a single two-character run for the C10 witness. -/
def docC10 : Doc := { paragraphs := [{ runs := [{ text := "ab".data }] }] }

/-- Filesystem holding the C10 witness document. -/
def fsC10 : FS := fun n => if n = "c10.docx" then some (File.docx docC10) else none

theorem c10_empty_find_witness :
    (replaceTextDoc docC10 [] "X".data).fst =
      docMapText (specEmptyInsert "X".data) docC10 ∧
    0 < (replaceTextDoc docC10 [] "X".data).snd ∧
    replace_text fsC10 "c10" "" "X" =
      ("Replaced " ++ toString (replaceTextDoc docC10 [] "X".data).snd
          ++ " occurrence(s) of " ++ quoteStr "" ++ " with " ++ quoteStr "X",
        fsC10.set (ensure_docx_extension "c10")
          (File.docx (docMapText (specEmptyInsert "X".data) docC10))) :=
  c10_empty_find fsC10 "c10" "X" docC10 (by decide) (by decide)

end WordMcp
